import Mathlib

/-!
Verification of the pet-health RAG chat pipeline implemented in
`frontend_int.py`.

The shallow embedding below translates the pure orchestration logic of the
source file.  Remote endpoints (the Cortex search service and the Cortex
`Complete` call) are modelled as parameters of an `Env` record returning
`Except String` values: an `Except.error` models the remote call raising an
exception.  User-visible side effects (the `st.error` banner, the sidebar
debug panes, and every remote call made) are recorded in an explicit event
list, so that claims about what is displayed, and about how many remote
calls a code path performs, become statements about that list.

Notes on fidelity:
* Python `str` values are Lean `String`s; the `.replace` calls of the source
  use single-character needles, so they are embedded character-wise.
* Python floats stored in the pet-info dict are modelled as rationals; the
  exact decimal rendering of a float is abstracted by `toString` on `ℚ`
  (no claim depends on the rendering of a number).
* Python `str()` of the chat-history list (interpolated into the rewrite
  prompt f-string) is modelled by `renderMessages`, which mirrors the
  `[{'role': ..., 'content': ...}, ...]` shape.
* The constant `columns=["chunk","file_url","relative_path","title"]` and
  the always-empty `filter={}` arguments of the remote search call are
  omitted from the embedded remote signature; the query and the limit, the
  only varying arguments, are kept.
-/

/-- Single-quote character, written by code point to keep source plain. -/
def quoteChar : Char := Char.ofNat 39

/-- One-character string holding a single quote. -/
def apo : String := String.singleton quoteChar

inductive Role where
  | user
  | assistant
deriving DecidableEq

/-- One entry of `st.session_state.messages`: a dict
`{"role": ..., "content": ...}`. -/
structure Message where
  role : Role
  content : String
deriving DecidableEq

/-- A raw search result: a free-form mapping of field name to value,
as returned by the remote search service. -/
abbrev SearchResult := List (String × String)

/-- Python `k in r` / `r[k]` on a result dict, merged into one lookup. -/
def dictGet (r : SearchResult) (k : String) : Option String :=
  (r.find? (fun p => p.1 == k)).map (fun p => p.2)

/-- Python `r.get(k, d)`. -/
def dictGetD (r : SearchResult) (k d : String) : String :=
  (dictGet r k).getD d

/-- User-visible effects and remote calls performed by a code path. -/
inductive Event where
  | completionCall : String → String → Event
  | searchCall : String → Event
  | sidebarText : String → String → Event
  | sidebarResults : List SearchResult → Event
  | errorBanner : String → Event
deriving DecidableEq

/-- The two remote endpoints.  `search query limit` models
`cortex_search_service.search(...)`; `generate model prompt` models
`snowflake.cortex.Complete(model, prompt)`.  An `Except.error` models the
call raising an exception. -/
structure Env where
  search : String → Nat → Except String (List SearchResult)
  generate : String → String → Except String String

/-- An environment whose completion endpoint never fails. -/
def envOf (gen : String → String → String)
    (s : String → Nat → Except String (List SearchResult)) : Env :=
  ⟨s, fun m p => Except.ok (gen m p)⟩

/-- The pet profile dict written by `display_pet_info_sidebar`:
each value is `None` or a truthy value of the field type. -/
structure PetInfo where
  name : Option String
  type : Option String
  breed : Option String
  age : Option ℚ
  weight : Option ℚ
  spayed_neutered : Option String
  medical_conditions : Option String
deriving DecidableEq

/-- The session configuration read by the pipeline. -/
structure Config where
  use_chat_history : Bool
  debug : Bool
  num_chat_messages : Nat
  num_retrieved_chunks : Nat
  model_name : String
  pet_info : PetInfo
  service_metadata : List (String × String)
  selected_cortex_search_service : String

/-- `question.replace("'", "")` (line 653 of the source). -/
def removeQuotes (s : String) : String :=
  String.mk (s.data.filter (fun c => c ≠ quoteChar))

/-- Expansion of one character under `.replace("$", "\$")`. -/
def expandDollar (c : Char) : List Char :=
  if c = '$' then ['\\', '$'] else [c]

/-- `.replace("$", "\$")`: the needle is a single character, so the
replacement acts character-wise. -/
def escapeDollar (s : String) : String :=
  String.mk (s.data.flatMap expandDollar)

/-- `complete(model, prompt)` (source lines 441-443):
`Complete(model, prompt).replace("$", "\$")`.  If the remote call raises,
the replacement is never reached and the exception propagates. -/
def complete (env : Env) (model prompt : String) : Except String String :=
  match env.generate model prompt with
  | Except.ok t => Except.ok (escapeDollar t)
  | Except.error e => Except.error e

/-- `get_chat_history()` (source lines 430-439): returns
`msgs[max(0, len(msgs)-n-1) : len(msgs)-1]`, or `[]` when fewer than two
messages exist. -/
def get_chat_history (n : Nat) (msgs : List Message) : List Message :=
  if msgs.length < 2 then []
  else (msgs.take (msgs.length - 1)).drop (msgs.length - n - 1)

/-- Python `str()` rendering of a role. -/
def roleStr : Role → String
  | Role.user => "user"
  | Role.assistant => "assistant"

/-- Python `str()` rendering of one history dict,
`{'role': ..., 'content': ...}` (braces written by escape). -/
def renderMessage (m : Message) : String :=
  "\x7b" ++ apo ++ "role" ++ apo ++ ": " ++ apo ++ roleStr m.role ++ apo ++
    ", " ++ apo ++ "content" ++ apo ++ ": " ++ apo ++ m.content ++ apo ++ "\x7d"

/-- Python `str()` rendering of the chat-history list, as interpolated into
an f-string.  The empty list renders as `[]`. -/
def renderMessages (msgs : List Message) : String :=
  "[" ++ String.intercalate ", " (msgs.map renderMessage) ++ "]"

/-- The f-string of `make_chat_history_summary` (source lines 447-461),
whose only interpolated inputs are the chat history and the question. -/
def summaryPrompt (chat_history question : String) : String :=
  "\n        [INST]\n        Based on the chat history below and the current question about pet health, \n        generate a comprehensive query that combines the question with relevant chat context.\n        The query should be in natural language and focused on pet health topics.\n        Answer with only the enhanced query. Do not add any explanation.\n\n        <chat_history>\n        "
    ++ chat_history ++
  "\n        </chat_history>\n        <question>\n        "
    ++ question ++
  "\n        </question>\n        [/INST]\n    "

/-- `make_chat_history_summary(chat_history, question)` (source lines
445-468): one completion call on the summary prompt; in debug mode the
result is additionally shown in the sidebar (re-escaped once more). -/
def make_chat_history_summary (env : Env) (cfg : Config)
    (chat_history question : String) : Except String (String × List Event) :=
  let prompt := summaryPrompt chat_history question
  match complete env cfg.model_name prompt with
  | Except.error e => Except.error e
  | Except.ok summary =>
      Except.ok (summary,
        [Event.completionCall cfg.model_name prompt] ++
          (if cfg.debug then
            [Event.sidebarText "Enhanced Query" (escapeDollar summary)]
          else []))

/-- The `next(...)`/`except StopIteration` lookup of the search column in
`query_cortex_search_service` (source lines 398-404). -/
def resolve_search_col (metadata : List (String × String))
    (selected : String) : String :=
  match metadata.find? (fun s => s.1 == selected) with
  | some s => s.2
  | none => "chunk"

/-- The context-string accumulation loop of `query_cortex_search_service`
(source lines 407-410). -/
def buildContextStr (search_col : String) (results : List SearchResult) :
    String :=
  String.join (results.enum.map (fun p =>
    match dictGet p.2 search_col with
    | some v => "Context document " ++ toString (p.1 + 1) ++ ": " ++ v ++ " \n\n"
    | none => ""))

/-- `query_cortex_search_service(query, ...)` (source lines 351-428).
The whole body is wrapped in a `try`; on any exception from the remote
call the function shows an error banner and returns the fallback pair
`("No context retrieved due to search error.", [])`. -/
def query_cortex_search_service (env : Env) (cfg : Config) (query : String) :
    (String × List SearchResult) × List Event :=
  match env.search query cfg.num_retrieved_chunks with
  | Except.ok results =>
      let search_col :=
        (resolve_search_col cfg.service_metadata
          cfg.selected_cortex_search_service).toLower
      let context_str := buildContextStr search_col results
      ((context_str, results),
        [Event.searchCall query] ++
          (if cfg.debug then
            [Event.sidebarText "Retrieved Context" context_str,
             Event.sidebarResults results]
          else []))
  | Except.error e =>
      (("No context retrieved due to search error.", []),
        [Event.searchCall query,
         Event.errorBanner ("Error querying search service: " ++ e)] ++
          (if cfg.debug then [Event.sidebarText "Search error details" e]
           else []))

/-- Python truthiness of a string-valued pet-info entry. -/
def strTruthy : Option String → Bool
  | none => false
  | some s => if s = "" then false else true

/-- Python truthiness of a numeric pet-info entry. -/
def numTruthy : Option ℚ → Bool
  | none => false
  | some q => if q = 0 then false else true

/-- `any(pet_info.values())` (source line 473). -/
def petAny (p : PetInfo) : Bool :=
  strTruthy p.name || strTruthy p.type || strTruthy p.breed ||
    numTruthy p.age || numTruthy p.weight || strTruthy p.spayed_neutered ||
    strTruthy p.medical_conditions

/-- One conditional `pet_details.append(label + value)` for a string field. -/
def strEntry (label : String) (v : Option String) : List String :=
  match v with
  | some s => if s = "" then [] else [label ++ s]
  | none => []

/-- One conditional `pet_details.append(label + value + unit)` for a
numeric field. -/
def numEntry (label unit : String) (v : Option ℚ) : List String :=
  match v with
  | some q => if q = 0 then [] else [label ++ (toString q ++ unit)]
  | none => []

/-- The `pet_details` list built by `get_pet_context` (source lines
476-490), in source order. -/
def petDetails (p : PetInfo) : List String :=
  strEntry "Pet name: " p.name ++ strEntry "Type: " p.type ++
    strEntry "Breed: " p.breed ++ numEntry "Age: " " years" p.age ++
    numEntry "Weight: " " lbs" p.weight ++
    strEntry "Spayed/Neutered: " p.spayed_neutered ++
    strEntry "Medical conditions: " p.medical_conditions

/-- `get_pet_context()` (source lines 470-492). -/
def get_pet_context (p : PetInfo) : String :=
  if petAny p = false then ""
  else "\n\nPet Information: " ++ String.intercalate ", " (petDetails p)

/-- Text of the main prompt f-string before the pet-information slot
(source lines 520-547). -/
def promptPre (chat_history prompt_context : String) : String :=
  "\n        [INST]\n        You are a knowledgeable veterinary assistant AI designed to help pet owners with health-related questions.\n        \n        IMPORTANT GUIDELINES:\n        - Provide helpful, accurate information based on the veterinary knowledge provided\n        - Always include appropriate medical disclaimers\n        - Remind users to consult with a licensed veterinarian for proper diagnosis and treatment\n        - Never provide specific medical diagnoses or treatment recommendations\n        - If the question involves emergency symptoms, advise immediate veterinary care\n        - Be empathetic and understanding of pet owners"
    ++ apo ++
  " concerns\n        - Use the pet information provided to give more personalized advice when relevant\n        \n        If you cannot answer the question based on the provided context, say \"I don"
    ++ apo ++
  "t have enough information in my knowledge base to answer that question. Please consult with a qualified veterinarian for advice.\"\n        \n        Don"
    ++ apo ++
  "t say phrases like \"according to the provided context\" - speak naturally.\n\n        <chat_history>\n        "
    ++ chat_history ++
  "\n        </chat_history>\n        \n        <veterinary_knowledge>\n        "
    ++ prompt_context ++
  "\n        </veterinary_knowledge>\n        \n        <pet_information>\n        "

/-- Text of the main prompt f-string after the pet-information slot
(source lines 548-555). -/
def promptPost (question : String) : String :=
  "\n        </pet_information>\n        \n        <question>\n        "
    ++ question ++
  "\n        </question>\n        [/INST]\n        \n        Response:\n    "

/-- The assembled main prompt (the f-string of `create_prompt`,
source lines 520-555). -/
def mainPrompt (chat_history prompt_context pet_context question : String) :
    String :=
  promptPre chat_history prompt_context ++ pet_context ++ promptPost question

/-- `create_prompt(user_question)` (source lines 494-557).  `msgs` is
`st.session_state.messages` at call time, which already ends with the
in-flight user question. -/
def create_prompt (env : Env) (cfg : Config) (msgs : List Message)
    (user_question : String) :
    Except String ((String × List SearchResult) × List Event) :=
  if cfg.use_chat_history then
    let chat_history := get_chat_history cfg.num_chat_messages msgs
    if chat_history.isEmpty then
      let r := query_cortex_search_service env cfg user_question
      Except.ok ((mainPrompt (renderMessages chat_history) r.1.1
        (get_pet_context cfg.pet_info) user_question, r.1.2), r.2)
    else
      match make_chat_history_summary env cfg (renderMessages chat_history)
          user_question with
      | Except.error e => Except.error e
      | Except.ok (question_summary, ev1) =>
          let r := query_cortex_search_service env cfg question_summary
          Except.ok ((mainPrompt (renderMessages chat_history) r.1.1
            (get_pet_context cfg.pet_info) user_question, r.1.2), ev1 ++ r.2)
  else
    let r := query_cortex_search_service env cfg user_question
    Except.ok ((mainPrompt "" r.1.1
      (get_pet_context cfg.pet_info) user_question, r.1.2), r.2)

/-- Prompt component of a `create_prompt` outcome. -/
def promptOf (r : Except String ((String × List SearchResult) × List Event)) :
    String :=
  match r with
  | Except.ok v => v.1.1
  | Except.error _ => ""

/-- Results component of a `create_prompt` outcome. -/
def resultsOf (r : Except String ((String × List SearchResult) × List Event)) :
    List SearchResult :=
  match r with
  | Except.ok v => v.1.2
  | Except.error _ => []

/-- Event log of a `create_prompt` outcome. -/
def eventsOf (r : Except String ((String × List SearchResult) × List Event)) :
    List Event :=
  match r with
  | Except.ok v => v.2
  | Except.error _ => []

/-- The completion calls recorded in an event log. -/
def completionCallsOf (evs : List Event) : List (String × String) :=
  evs.filterMap (fun e =>
    match e with
    | Event.completionCall m p => some (m, p)
    | _ => none)

/-- The search queries recorded in an event log, in call order. -/
def searchQueriesOf (evs : List Event) : List String :=
  evs.filterMap (fun e =>
    match e with
    | Event.searchCall q => some q
    | _ => none)

/-- Whether an event log shows the enhanced query in the sidebar. -/
def enhancedShown (evs : List Event) : Bool :=
  evs.any (fun e =>
    match e with
    | Event.sidebarText label _ => label == "Enhanced Query"
    | _ => false)

/-- One row of the references table (source lines 663-666). -/
def refRow (ref : SearchResult) : String :=
  "| " ++ dictGetD ref "title" (dictGetD ref "relative_path" "Unknown") ++
    " | [View Source](" ++ dictGetD ref "file_url" "#" ++ ") |\n"

/-- The references block built in `main` (source lines 660-666):
empty when there are no results. -/
def buildReferences (results : List SearchResult) : String :=
  if results.isEmpty then ""
  else "\n\n###### 📚 References \n\n| Document | Source |\n|----------|--------|\n"
    ++ String.join (results.map refRow)

/-- One user turn of `main` (source lines 640-675): append the user
message, strip single quotes, build the prompt, generate, display the
response with references, append the assistant message.  The first
component is `st.session_state.messages` after the turn; the second is
the displayed response, or the exception that escaped the turn. -/
def runTurn (env : Env) (cfg : Config) (msgs : List Message)
    (question : String) : List Message × Except String String :=
  let msgs1 := msgs ++ [⟨Role.user, question⟩]
  let cleaned_question := removeQuotes question
  match create_prompt env cfg msgs1 cleaned_question with
  | Except.error e => (msgs1, Except.error e)
  | Except.ok ((prompt, results), _) =>
      match complete env cfg.model_name prompt with
      | Except.error e => (msgs1, Except.error e)
      | Except.ok generated_response =>
          (msgs1 ++ [⟨Role.assistant, generated_response⟩],
            Except.ok (generated_response ++ buildReferences results))

/-- Conversation logs reachable from `init_messages` (source lines 71-74)
by turns and by the Clear-Chat reset.  A turn's log mutation persists in
the session state whether the turn completed or its completion call
raised (`main` appends the user message at line 642, before the uncaught
`complete` call), so the step admits any turn outcome. -/
inductive Reachable : List Message → Prop where
  | init : Reachable []
  | clear : ∀ msgs, Reachable msgs → Reachable []
  | turn : ∀ env cfg msgs q out r, Reachable msgs →
      runTurn env cfg msgs q = (out, r) → Reachable out

/-- The log entries one turn leaves behind: only the user message when the
completion call raised, the user/assistant pair when the turn completed. -/
def chunkMsgs : String × Option String → List Message
  | (q, none) => [⟨Role.user, q⟩]
  | (q, some g) => [⟨Role.user, q⟩, ⟨Role.assistant, g⟩]

/-- The role of the message at an index, when the index is in range. -/
def roleAt (msgs : List Message) (i : Nat) : Option Role :=
  (msgs.get? i).map Message.role

/-- JSON values, as produced by `json.dumps` of the export dict. -/
inductive Jval where
  | str : String → Jval
  | num : ℚ → Jval
  | null : Jval
  | arr : List Jval → Jval
  | obj : List (String × Jval) → Jval

/-- JSON encoding of an optional string field. -/
def encodeOptStr : Option String → Jval
  | none => Jval.null
  | some s => Jval.str s

/-- JSON encoding of an optional numeric field. -/
def encodeOptNum : Option ℚ → Jval
  | none => Jval.null
  | some q => Jval.num q

/-- JSON encoding of the pet-info dict. -/
def encodePetInfo (p : PetInfo) : Jval :=
  Jval.obj [("name", encodeOptStr p.name), ("type", encodeOptStr p.type),
    ("breed", encodeOptStr p.breed), ("age", encodeOptNum p.age),
    ("weight", encodeOptNum p.weight),
    ("spayed_neutered", encodeOptStr p.spayed_neutered),
    ("medical_conditions", encodeOptStr p.medical_conditions)]

/-- JSON encoding of one conversation message: the stored dicts hold only
a role and a content string. -/
def encodeMessage (m : Message) : Jval :=
  Jval.obj [("role", Jval.str (roleStr m.role)),
    ("content", Jval.str m.content)]

/-- `export_chat()` (source lines 335-349): the JSON document written to
the download, with `ts` standing for `datetime.now().isoformat()`. -/
def export_chat (ts : String) (p : PetInfo) (svc model : String)
    (msgs : List Message) : Jval :=
  Jval.obj [("timestamp", Jval.str ts), ("pet_info", encodePetInfo p),
    ("search_service", Jval.str svc), ("model", Jval.str model),
    ("messages", Jval.arr (msgs.map encodeMessage))]

/-- The field names of a JSON object. -/
def keysOf : Jval → List String
  | Jval.obj fs => fs.map (fun p => p.1)
  | _ => []

/-- Key lookup in a JSON object body. -/
def jlookup (fs : List (String × Jval)) (k : String) : Option Jval :=
  (fs.find? (fun p => p.1 == k)).map (fun p => p.2)

/-- Parse a role string back. -/
def decodeRole : Jval → Option Role
  | Jval.str s =>
      if s = "user" then some Role.user
      else if s = "assistant" then some Role.assistant
      else none
  | _ => none

/-- Parse one message object back. -/
def decodeMessage : Jval → Option Message
  | Jval.obj fs =>
      match jlookup fs "role", jlookup fs "content" with
      | some r, some (Jval.str c) =>
          match decodeRole r with
          | some ro => some ⟨ro, c⟩
          | none => none
      | _, _ => none
  | _ => none

/-- Parse an optional string field back. -/
def decodeOptStr : Option Jval → Option (Option String)
  | some (Jval.str s) => some (some s)
  | some Jval.null => some none
  | _ => none

/-- Parse an optional numeric field back. -/
def decodeOptNum : Option Jval → Option (Option ℚ)
  | some (Jval.num q) => some (some q)
  | some Jval.null => some none
  | _ => none

/-- Parse the pet-info object back. -/
def decodePetInfo : Jval → Option PetInfo
  | Jval.obj fs =>
      match decodeOptStr (jlookup fs "name"),
        decodeOptStr (jlookup fs "type"),
        decodeOptStr (jlookup fs "breed"), decodeOptNum (jlookup fs "age"),
        decodeOptNum (jlookup fs "weight"),
        decodeOptStr (jlookup fs "spayed_neutered"),
        decodeOptStr (jlookup fs "medical_conditions") with
      | some n, some t, some b, some a, some w, some sn, some mc =>
          some ⟨n, t, b, a, w, sn, mc⟩
      | _, _, _, _, _, _, _ => none
  | _ => none

/-- Parse the exported document back into the pet profile and the ordered
message sequence. -/
def decodeExport (j : Jval) : Option (PetInfo × List Message) :=
  match j with
  | Jval.obj fs =>
      match jlookup fs "pet_info", jlookup fs "messages" with
      | some pj, some (Jval.arr ms) =>
          match decodePetInfo pj, ms.mapM decodeMessage with
          | some p, some msgs => some (p, msgs)
          | _, _ => none
      | _, _ => none
  | _ => none

/-- The six wall-clock components consumed by
`datetime.now().strftime("%Y%m%d_%H%M%S")`. -/
structure DateTime6 where
  year : Nat
  month : Nat
  day : Nat
  hour : Nat
  minute : Nat
  second : Nat

/-- Two-digit zero-padded field, as `%m`, `%d`, `%H`, `%M`, `%S` render. -/
def pad2 (n : Nat) : String :=
  String.mk [Nat.digitChar (n / 10), Nat.digitChar (n % 10)]

/-- Four-digit zero-padded year, as `%Y` renders for years below 10000. -/
def pad4 (n : Nat) : String :=
  String.mk [Nat.digitChar (n / 1000), Nat.digitChar (n / 100 % 10),
    Nat.digitChar (n / 10 % 10), Nat.digitChar (n % 10)]

/-- `strftime("%Y%m%d")`. -/
def fmtYmd (d : DateTime6) : String :=
  pad4 d.year ++ pad2 d.month ++ pad2 d.day

/-- `strftime("%H%M%S")`. -/
def fmtHms (d : DateTime6) : String :=
  pad2 d.hour ++ pad2 d.minute ++ pad2 d.second

/-- The download file name of `export_chat` (source line 347). -/
def export_filename (d : DateTime6) : String :=
  "pet_health_chat_" ++ fmtYmd d ++ "_" ++ fmtHms d ++ ".json"

/-- Bounds under which each strftime field renders with its nominal
digit count (true of every real wall-clock date). -/
def ValidDate (d : DateTime6) : Prop :=
  d.year < 10000 ∧ d.month < 100 ∧ d.day < 100 ∧ d.hour < 100 ∧
    d.minute < 100 ∧ d.second < 100

/-- The spec shape `pet_health_chat_<YYYYMMDD_HHMMSS>.json`: an eight-digit
date part and a six-digit time part joined by an underscore. -/
def matchesExportFilenamePattern (s : String) : Prop :=
  ∃ datePart timePart : String,
    s = "pet_health_chat_" ++ datePart ++ "_" ++ timePart ++ ".json"
    ∧ datePart.length = 8 ∧ timePart.length = 6
    ∧ (∀ c ∈ datePart.data, c.isDigit = true)
    ∧ (∀ c ∈ timePart.data, c.isDigit = true)

/-- The two log entries one completed turn appends. -/
def pairMsgs (pr : String × String) : List Message :=
  [⟨Role.user, pr.1⟩, ⟨Role.assistant, pr.2⟩]

/-- A log that is a flat sequence of completed user/assistant pairs. -/
def TurnLog (msgs : List Message) : Prop :=
  ∃ pairs : List (String × String), msgs = pairs.flatMap pairMsgs

/-- The all-empty pet profile. -/
def petEmpty : PetInfo := ⟨none, none, none, none, none, none, none⟩

/-- A concrete populated pet profile. -/
def petBuddy : PetInfo :=
  ⟨some "Buddy", some "Dog", none, some 3, none, none, none⟩

/-- A concrete session configuration for witnesses. -/
def cfg0 : Config :=
  ⟨true, true, 5, 5, "mistral-large2", petEmpty,
    [("PETAPP.DATA.CC_SEARCH_SERVICE_CS", "chunk")],
    "PETAPP.DATA.CC_SEARCH_SERVICE_CS"⟩

/-- A concrete message log for witnesses. -/
def msgs0 : List Message :=
  [⟨Role.user, "a"⟩, ⟨Role.assistant, "b"⟩, ⟨Role.user, "c"⟩]

/-- A completion oracle for witnesses. -/
def gen0 : String → String → String := fun _ _ => "enhanced query"

/-- A search endpoint for witnesses that returns no results. -/
def srch0 : String → Nat → Except String (List SearchResult) :=
  fun _ _ => Except.ok []

/-- An environment whose search endpoint always raises. -/
def envDown : Env :=
  ⟨fun _ _ => Except.error "boom", fun _ _ => Except.ok ""⟩

/-- The placeholder message the spec attributes to completion failure.
It occurs nowhere in `frontend_int.py`. -/
def placeholderMsg : String :=
  "I" ++ apo ++ "m sorry, I couldn" ++ apo ++ "t generate a response"

/-- An environment whose completion endpoint always raises. -/
def envGenDown : Env :=
  ⟨fun _ _ => Except.ok [], fun _ _ => Except.error "remote failure"⟩

/-- An environment whose completion endpoint returns a dollar sign. -/
def envDollar : Env :=
  ⟨fun _ _ => Except.ok [], fun _ _ => Except.ok "a$b"⟩

/-- An environment whose completion endpoint returns plain text. -/
def envPlain : Env :=
  ⟨fun _ _ => Except.ok [], fun _ _ => Except.ok "ab"⟩

theorem complete_envOf (f : String → String → String)
    (s : String → Nat → Except String (List SearchResult)) (m p : String) :
    complete (envOf f s) m p = Except.ok (escapeDollar (f m p)) := rfl

/-- C1: on a user turn, the history-aware rewrite (one extra completion
call whose only inputs are the rendered chat history and the question) is
performed iff the history flag is on and the window is non-empty; its
output, not the raw question, is the query passed to the search call, and
it is shown in the sidebar exactly when debug mode is on. -/
theorem create_prompt_rewrite_spec (f : String → String → String)
    (s : String → Nat → Except String (List SearchResult))
    (cfg : Config) (msgs : List Message) (q : String) :
    ((cfg.use_chat_history = true ∧
        get_chat_history cfg.num_chat_messages msgs ≠ []) →
      completionCallsOf (eventsOf (create_prompt (envOf f s) cfg msgs q)) =
        [(cfg.model_name, summaryPrompt
          (renderMessages (get_chat_history cfg.num_chat_messages msgs)) q)]
      ∧ searchQueriesOf (eventsOf (create_prompt (envOf f s) cfg msgs q)) =
        [escapeDollar (f cfg.model_name (summaryPrompt
          (renderMessages (get_chat_history cfg.num_chat_messages msgs)) q))]
      ∧ enhancedShown (eventsOf (create_prompt (envOf f s) cfg msgs q)) =
          cfg.debug)
    ∧ (¬(cfg.use_chat_history = true ∧
        get_chat_history cfg.num_chat_messages msgs ≠ []) →
      completionCallsOf (eventsOf (create_prompt (envOf f s) cfg msgs q)) = []
      ∧ searchQueriesOf (eventsOf (create_prompt (envOf f s) cfg msgs q)) =
          [q]) := by
  constructor
  · rintro ⟨hu, hne⟩
    have hne2 : (get_chat_history cfg.num_chat_messages msgs).isEmpty = false := by
      cases h : (get_chat_history cfg.num_chat_messages msgs).isEmpty
      · rfl
      · exact absurd (List.isEmpty_iff.mp h) hne
    simp only [create_prompt, hu, if_true, hne2, Bool.false_eq_true,
      if_false, make_chat_history_summary, complete_envOf,
      query_cortex_search_service]
    cases hs : s (escapeDollar (f cfg.model_name (summaryPrompt
        (renderMessages (get_chat_history cfg.num_chat_messages msgs)) q)))
        cfg.num_retrieved_chunks <;>
      cases hd : cfg.debug <;>
        simp [envOf, hs, eventsOf, completionCallsOf, searchQueriesOf,
          enhancedShown, List.filterMap_append, List.any_append]
  · intro hn
    by_cases hu : cfg.use_chat_history = true
    · have hne : get_chat_history cfg.num_chat_messages msgs = [] := by
        by_contra hc
        exact hn ⟨hu, hc⟩
      have hne2 : (get_chat_history cfg.num_chat_messages msgs).isEmpty = true := by
        rw [List.isEmpty_iff]; exact hne
      simp only [create_prompt, hu, if_true, hne2,
        query_cortex_search_service]
      cases hs : s q cfg.num_retrieved_chunks <;>
        cases hd : cfg.debug <;>
          simp [envOf, hs, eventsOf, completionCallsOf, searchQueriesOf,
            List.filterMap_append]
    · have hu2 : cfg.use_chat_history = false := by
        cases h : cfg.use_chat_history
        · rfl
        · exact absurd h hu
      simp only [create_prompt, hu2, Bool.false_eq_true, if_false,
        query_cortex_search_service]
      cases hs : s q cfg.num_retrieved_chunks <;>
        cases hd : cfg.debug <;>
          simp [envOf, hs, eventsOf, completionCallsOf, searchQueriesOf,
            List.filterMap_append]

/-- C4: when the remote search call raises, the search adapter returns the
fallback context and an empty result list, surfaces an error banner, makes
exactly one search attempt, and (being a total function) propagates no
exception. -/
theorem query_search_error_spec (env : Env) (cfg : Config) (q e : String)
    (hs : env.search q cfg.num_retrieved_chunks = Except.error e) :
    (query_cortex_search_service env cfg q).1 =
      ("No context retrieved due to search error.", [])
    ∧ Event.errorBanner ("Error querying search service: " ++ e) ∈
        (query_cortex_search_service env cfg q).2
    ∧ searchQueriesOf (query_cortex_search_service env cfg q).2 = [q] := by
  simp only [query_cortex_search_service, hs]
  cases hd : cfg.debug <;>
    simp [searchQueriesOf, List.filterMap_append]

/-- C1 witness: with two prior turns in the log, history inclusion on and
debug on, the rewrite happens once, its output is the search query, and
the enhanced query is shown. -/
theorem create_prompt_rewrite_spec_witness :
    completionCallsOf (eventsOf (create_prompt (envOf gen0 srch0) cfg0 msgs0
        "c")) =
      [(cfg0.model_name, summaryPrompt
        (renderMessages (get_chat_history cfg0.num_chat_messages msgs0)) "c")]
    ∧ searchQueriesOf (eventsOf (create_prompt (envOf gen0 srch0) cfg0 msgs0
        "c")) =
      [escapeDollar (gen0 cfg0.model_name (summaryPrompt
        (renderMessages (get_chat_history cfg0.num_chat_messages msgs0)) "c"))]
    ∧ enhancedShown (eventsOf (create_prompt (envOf gen0 srch0) cfg0 msgs0
        "c")) = cfg0.debug :=
  (create_prompt_rewrite_spec gen0 srch0 cfg0 msgs0 "c").1 ⟨rfl, by decide⟩

/-- C4 witness: a concrete raising search endpoint. -/
theorem query_search_error_spec_witness :
    (query_cortex_search_service envDown cfg0 "q").1 =
      ("No context retrieved due to search error.", [])
    ∧ Event.errorBanner ("Error querying search service: " ++ "boom") ∈
        (query_cortex_search_service envDown cfg0 "q").2
    ∧ searchQueriesOf (query_cortex_search_service envDown cfg0 "q").2 =
        ["q"] :=
  query_search_error_spec envDown cfg0 "q" "boom" rfl

theorem prefix_head (l x : List Char) (c : Char) (h : l.head? = some c)
    (hp : l <+: x) : x.head? = some c := by
  obtain ⟨t, ht⟩ := hp
  subst ht
  cases l with
  | nil => simp at h
  | cons a l => simpa using h

theorem head_lit_append (lit v : String) (c : Char)
    (h : lit.data.head? = some c) : (lit ++ v).data.head? = some c := by
  rw [String.data_append]
  cases hd : lit.data with
  | nil => rw [hd] at h; simp at h
  | cons a t => rw [hd] at h; simpa using h

theorem prefix_entry_head (L x : String) (cF cG : Char)
    (hL : L.data.head? = some cF) (hx : x.data.head? = some cG)
    (hp : L.data <+: x.data) : cF = cG := by
  have h := prefix_head L.data x.data cF hL hp
  rw [hx] at h
  exact (Option.some.inj h).symm

theorem mem_strEntry (label : String) (v : Option String) (x : String) :
    x ∈ strEntry label v ↔ ∃ s, v = some s ∧ s ≠ "" ∧ x = label ++ s := by
  cases v with
  | none => simp [strEntry]
  | some s =>
      by_cases h : s = "" <;> simp [strEntry, h]

theorem mem_numEntry (label unit : String) (v : Option ℚ) (x : String) :
    x ∈ numEntry label unit v ↔
      ∃ q, v = some q ∧ q ≠ 0 ∧ x = label ++ (toString q ++ unit) := by
  cases v with
  | none => simp [numEntry]
  | some q =>
      by_cases h : q = 0 <;> simp [numEntry, h]

theorem petDetails_mem_head (p : PetInfo) (x : String)
    (hx : x ∈ petDetails p) :
    (x.data.head? = some 'P' ∧ strTruthy p.name = true) ∨
    (x.data.head? = some 'T' ∧ strTruthy p.type = true) ∨
    (x.data.head? = some 'B' ∧ strTruthy p.breed = true) ∨
    (x.data.head? = some 'A' ∧ numTruthy p.age = true) ∨
    (x.data.head? = some 'W' ∧ numTruthy p.weight = true) ∨
    (x.data.head? = some 'S' ∧ strTruthy p.spayed_neutered = true) ∨
    (x.data.head? = some 'M' ∧ strTruthy p.medical_conditions = true) := by
  simp only [petDetails, List.mem_append] at hx
  rcases hx with ((((((h | h) | h) | h) | h) | h) | h)
  · rcases (mem_strEntry _ _ _).mp h with ⟨s, hv, hs, hx⟩
    exact Or.inl ⟨hx ▸ head_lit_append _ _ _ rfl, by simp [strTruthy, hv, hs]⟩
  · rcases (mem_strEntry _ _ _).mp h with ⟨s, hv, hs, hx⟩
    exact Or.inr (Or.inl ⟨hx ▸ head_lit_append _ _ _ rfl,
      by simp [strTruthy, hv, hs]⟩)
  · rcases (mem_strEntry _ _ _).mp h with ⟨s, hv, hs, hx⟩
    exact Or.inr (Or.inr (Or.inl ⟨hx ▸ head_lit_append _ _ _ rfl,
      by simp [strTruthy, hv, hs]⟩))
  · rcases (mem_numEntry _ _ _ _).mp h with ⟨q, hv, hq, hx⟩
    exact Or.inr (Or.inr (Or.inr (Or.inl ⟨hx ▸ head_lit_append _ _ _ rfl,
      by simp [numTruthy, hv, hq]⟩)))
  · rcases (mem_numEntry _ _ _ _).mp h with ⟨q, hv, hq, hx⟩
    exact Or.inr (Or.inr (Or.inr (Or.inr (Or.inl
      ⟨hx ▸ head_lit_append _ _ _ rfl, by simp [numTruthy, hv, hq]⟩))))
  · rcases (mem_strEntry _ _ _).mp h with ⟨s, hv, hs, hx⟩
    exact Or.inr (Or.inr (Or.inr (Or.inr (Or.inr (Or.inl
      ⟨hx ▸ head_lit_append _ _ _ rfl, by simp [strTruthy, hv, hs]⟩)))))
  · rcases (mem_strEntry _ _ _).mp h with ⟨s, hv, hs, hx⟩
    exact Or.inr (Or.inr (Or.inr (Or.inr (Or.inr (Or.inr
      ⟨hx ▸ head_lit_append _ _ _ rfl, by simp [strTruthy, hv, hs]⟩)))))

theorem strEntry_self (label : String) (v : Option String)
    (h : strTruthy v = true) : (label ++ v.getD "") ∈ strEntry label v := by
  cases v with
  | none => simp [strTruthy] at h
  | some s =>
      have hs : s ≠ "" := by
        intro he; rw [he] at h; simp [strTruthy] at h
      simp [strEntry, hs]

theorem numEntry_self (label unit : String) (v : Option ℚ)
    (h : numTruthy v = true) :
    (label ++ (toString (v.getD 0) ++ unit)) ∈ numEntry label unit v := by
  cases v with
  | none => simp [numTruthy] at h
  | some q =>
      have hq : q ≠ 0 := by
        intro he; rw [he] at h; simp [numTruthy] at h
      simp [numEntry, hq]

/-- C3: with an all-empty pet profile the personalization section is absent
(the pet context is the empty string and the assembled prompt equals the
prompt with an empty personalization slot); with at least one populated
field the prompt contains the "Pet Information" marker, and the details
list holds an entry for a field exactly when that field is populated. -/
theorem pet_context_spec (p : PetInfo) :
    (petAny p = false →
      get_pet_context p = ""
      ∧ ∀ ch ctx q, mainPrompt ch ctx (get_pet_context p) q =
          mainPrompt ch ctx "" q)
    ∧ (petAny p = true →
      ("Pet Information" : String).data <:+: (get_pet_context p).data
      ∧ ∀ ch ctx q, ("Pet Information" : String).data <:+:
          (mainPrompt ch ctx (get_pet_context p) q).data)
    ∧ (strTruthy p.name = true →
        ("Pet name: " ++ p.name.getD "") ∈ petDetails p)
    ∧ (strTruthy p.name = false →
        ∀ x ∈ petDetails p, ¬ ("Pet name: " : String).data <+: x.data)
    ∧ (strTruthy p.type = true →
        ("Type: " ++ p.type.getD "") ∈ petDetails p)
    ∧ (strTruthy p.type = false →
        ∀ x ∈ petDetails p, ¬ ("Type: " : String).data <+: x.data)
    ∧ (strTruthy p.breed = true →
        ("Breed: " ++ p.breed.getD "") ∈ petDetails p)
    ∧ (strTruthy p.breed = false →
        ∀ x ∈ petDetails p, ¬ ("Breed: " : String).data <+: x.data)
    ∧ (numTruthy p.age = true →
        ("Age: " ++ (toString (p.age.getD 0) ++ " years")) ∈ petDetails p)
    ∧ (numTruthy p.age = false →
        ∀ x ∈ petDetails p, ¬ ("Age: " : String).data <+: x.data)
    ∧ (numTruthy p.weight = true →
        ("Weight: " ++ (toString (p.weight.getD 0) ++ " lbs")) ∈ petDetails p)
    ∧ (numTruthy p.weight = false →
        ∀ x ∈ petDetails p, ¬ ("Weight: " : String).data <+: x.data)
    ∧ (strTruthy p.spayed_neutered = true →
        ("Spayed/Neutered: " ++ p.spayed_neutered.getD "") ∈ petDetails p)
    ∧ (strTruthy p.spayed_neutered = false →
        ∀ x ∈ petDetails p, ¬ ("Spayed/Neutered: " : String).data <+: x.data)
    ∧ (strTruthy p.medical_conditions = true →
        ("Medical conditions: " ++ p.medical_conditions.getD "") ∈
          petDetails p)
    ∧ (strTruthy p.medical_conditions = false →
        ∀ x ∈ petDetails p,
          ¬ ("Medical conditions: " : String).data <+: x.data) := by
  have hdata : ∀ a b : String, (a ++ b).data = a.data ++ b.data :=
    fun a b => String.data_append a b
  refine ⟨?_, ?_, ?_, ?_, ?_, ?_, ?_, ?_, ?_, ?_, ?_, ?_, ?_, ?_, ?_, ?_⟩
  · intro h
    have hg : get_pet_context p = "" := by simp [get_pet_context, h]
    exact ⟨hg, fun ch ctx q => by rw [hg]⟩
  · intro h
    have hg : get_pet_context p =
        "\n\nPet Information: " ++
          String.intercalate ", " (petDetails p) := by
      rw [get_pet_context, if_neg]
      intro hf
      rw [h] at hf
      exact absurd hf (by decide)
    have hlit : ("\n\nPet Information: " : String).data =
        ['\n', '\n'] ++ ("Pet Information" : String).data ++ [':', ' '] := by
      decide
    have h1 : ("Pet Information" : String).data <:+:
        (get_pet_context p).data := by
      rw [hg, hdata, hlit]
      exact ⟨['\n', '\n'],
        [':', ' '] ++ (String.intercalate ", " (petDetails p)).data,
        by simp [List.append_assoc]⟩
    refine ⟨h1, fun ch ctx q => ?_⟩
    rw [mainPrompt, hdata, hdata]
    exact h1.trans (List.infix_append _ _ _)
  · intro h
    simp only [petDetails, List.mem_append]
    exact Or.inl (Or.inl (Or.inl (Or.inl (Or.inl (Or.inl
      (strEntry_self _ _ h))))))
  · intro h x hx hp
    rcases petDetails_mem_head p x hx with ⟨hh, ht⟩ | ⟨hh, ht⟩ | ⟨hh, ht⟩ |
      ⟨hh, ht⟩ | ⟨hh, ht⟩ | ⟨hh, ht⟩ | ⟨hh, ht⟩
    · rw [h] at ht; exact absurd ht (by decide)
    · exact absurd (prefix_entry_head "Pet name: " x 'P' 'T' rfl hh hp) (by decide)
    · exact absurd (prefix_entry_head "Pet name: " x 'P' 'B' rfl hh hp) (by decide)
    · exact absurd (prefix_entry_head "Pet name: " x 'P' 'A' rfl hh hp) (by decide)
    · exact absurd (prefix_entry_head "Pet name: " x 'P' 'W' rfl hh hp) (by decide)
    · exact absurd (prefix_entry_head "Pet name: " x 'P' 'S' rfl hh hp) (by decide)
    · exact absurd (prefix_entry_head "Pet name: " x 'P' 'M' rfl hh hp) (by decide)
  · intro h
    simp only [petDetails, List.mem_append]
    exact Or.inl (Or.inl (Or.inl (Or.inl (Or.inl (Or.inr
      (strEntry_self _ _ h))))))
  · intro h x hx hp
    rcases petDetails_mem_head p x hx with ⟨hh, ht⟩ | ⟨hh, ht⟩ | ⟨hh, ht⟩ |
      ⟨hh, ht⟩ | ⟨hh, ht⟩ | ⟨hh, ht⟩ | ⟨hh, ht⟩
    · exact absurd (prefix_entry_head "Type: " x 'T' 'P' rfl hh hp) (by decide)
    · rw [h] at ht; exact absurd ht (by decide)
    · exact absurd (prefix_entry_head "Type: " x 'T' 'B' rfl hh hp) (by decide)
    · exact absurd (prefix_entry_head "Type: " x 'T' 'A' rfl hh hp) (by decide)
    · exact absurd (prefix_entry_head "Type: " x 'T' 'W' rfl hh hp) (by decide)
    · exact absurd (prefix_entry_head "Type: " x 'T' 'S' rfl hh hp) (by decide)
    · exact absurd (prefix_entry_head "Type: " x 'T' 'M' rfl hh hp) (by decide)
  · intro h
    simp only [petDetails, List.mem_append]
    exact Or.inl (Or.inl (Or.inl (Or.inl (Or.inr (strEntry_self _ _ h)))))
  · intro h x hx hp
    rcases petDetails_mem_head p x hx with ⟨hh, ht⟩ | ⟨hh, ht⟩ | ⟨hh, ht⟩ |
      ⟨hh, ht⟩ | ⟨hh, ht⟩ | ⟨hh, ht⟩ | ⟨hh, ht⟩
    · exact absurd (prefix_entry_head "Breed: " x 'B' 'P' rfl hh hp) (by decide)
    · exact absurd (prefix_entry_head "Breed: " x 'B' 'T' rfl hh hp) (by decide)
    · rw [h] at ht; exact absurd ht (by decide)
    · exact absurd (prefix_entry_head "Breed: " x 'B' 'A' rfl hh hp) (by decide)
    · exact absurd (prefix_entry_head "Breed: " x 'B' 'W' rfl hh hp) (by decide)
    · exact absurd (prefix_entry_head "Breed: " x 'B' 'S' rfl hh hp) (by decide)
    · exact absurd (prefix_entry_head "Breed: " x 'B' 'M' rfl hh hp) (by decide)
  · intro h
    simp only [petDetails, List.mem_append]
    exact Or.inl (Or.inl (Or.inl (Or.inr (numEntry_self _ _ _ h))))
  · intro h x hx hp
    rcases petDetails_mem_head p x hx with ⟨hh, ht⟩ | ⟨hh, ht⟩ | ⟨hh, ht⟩ |
      ⟨hh, ht⟩ | ⟨hh, ht⟩ | ⟨hh, ht⟩ | ⟨hh, ht⟩
    · exact absurd (prefix_entry_head "Age: " x 'A' 'P' rfl hh hp) (by decide)
    · exact absurd (prefix_entry_head "Age: " x 'A' 'T' rfl hh hp) (by decide)
    · exact absurd (prefix_entry_head "Age: " x 'A' 'B' rfl hh hp) (by decide)
    · rw [h] at ht; exact absurd ht (by decide)
    · exact absurd (prefix_entry_head "Age: " x 'A' 'W' rfl hh hp) (by decide)
    · exact absurd (prefix_entry_head "Age: " x 'A' 'S' rfl hh hp) (by decide)
    · exact absurd (prefix_entry_head "Age: " x 'A' 'M' rfl hh hp) (by decide)
  · intro h
    simp only [petDetails, List.mem_append]
    exact Or.inl (Or.inl (Or.inr (numEntry_self _ _ _ h)))
  · intro h x hx hp
    rcases petDetails_mem_head p x hx with ⟨hh, ht⟩ | ⟨hh, ht⟩ | ⟨hh, ht⟩ |
      ⟨hh, ht⟩ | ⟨hh, ht⟩ | ⟨hh, ht⟩ | ⟨hh, ht⟩
    · exact absurd (prefix_entry_head "Weight: " x 'W' 'P' rfl hh hp) (by decide)
    · exact absurd (prefix_entry_head "Weight: " x 'W' 'T' rfl hh hp) (by decide)
    · exact absurd (prefix_entry_head "Weight: " x 'W' 'B' rfl hh hp) (by decide)
    · exact absurd (prefix_entry_head "Weight: " x 'W' 'A' rfl hh hp) (by decide)
    · rw [h] at ht; exact absurd ht (by decide)
    · exact absurd (prefix_entry_head "Weight: " x 'W' 'S' rfl hh hp) (by decide)
    · exact absurd (prefix_entry_head "Weight: " x 'W' 'M' rfl hh hp) (by decide)
  · intro h
    simp only [petDetails, List.mem_append]
    exact Or.inl (Or.inr (strEntry_self _ _ h))
  · intro h x hx hp
    rcases petDetails_mem_head p x hx with ⟨hh, ht⟩ | ⟨hh, ht⟩ | ⟨hh, ht⟩ |
      ⟨hh, ht⟩ | ⟨hh, ht⟩ | ⟨hh, ht⟩ | ⟨hh, ht⟩
    · exact absurd (prefix_entry_head "Spayed/Neutered: " x 'S' 'P' rfl hh hp) (by decide)
    · exact absurd (prefix_entry_head "Spayed/Neutered: " x 'S' 'T' rfl hh hp) (by decide)
    · exact absurd (prefix_entry_head "Spayed/Neutered: " x 'S' 'B' rfl hh hp) (by decide)
    · exact absurd (prefix_entry_head "Spayed/Neutered: " x 'S' 'A' rfl hh hp) (by decide)
    · exact absurd (prefix_entry_head "Spayed/Neutered: " x 'S' 'W' rfl hh hp) (by decide)
    · rw [h] at ht; exact absurd ht (by decide)
    · exact absurd (prefix_entry_head "Spayed/Neutered: " x 'S' 'M' rfl hh hp) (by decide)
  · intro h
    simp only [petDetails, List.mem_append]
    exact Or.inr (strEntry_self _ _ h)
  · intro h x hx hp
    rcases petDetails_mem_head p x hx with ⟨hh, ht⟩ | ⟨hh, ht⟩ | ⟨hh, ht⟩ |
      ⟨hh, ht⟩ | ⟨hh, ht⟩ | ⟨hh, ht⟩ | ⟨hh, ht⟩
    · exact absurd (prefix_entry_head "Medical conditions: " x 'M' 'P' rfl hh hp) (by decide)
    · exact absurd (prefix_entry_head "Medical conditions: " x 'M' 'T' rfl hh hp) (by decide)
    · exact absurd (prefix_entry_head "Medical conditions: " x 'M' 'B' rfl hh hp) (by decide)
    · exact absurd (prefix_entry_head "Medical conditions: " x 'M' 'A' rfl hh hp) (by decide)
    · exact absurd (prefix_entry_head "Medical conditions: " x 'M' 'W' rfl hh hp) (by decide)
    · exact absurd (prefix_entry_head "Medical conditions: " x 'M' 'S' rfl hh hp) (by decide)
    · rw [h] at ht; exact absurd ht (by decide)

/-- C3 witness: the all-empty profile yields no personalization text, and a
populated profile puts the marker into the pet context. -/
theorem pet_context_spec_witness :
    get_pet_context petEmpty = ""
    ∧ ("Pet Information" : String).data <:+: (get_pet_context petBuddy).data
    ∧ ("Pet name: " ++ (petBuddy.name.getD "")) ∈ petDetails petBuddy :=
  ⟨((pet_context_spec petEmpty).1 (by decide)).1,
   ((pet_context_spec petBuddy).2.1 (by decide)).1,
   (pet_context_spec petBuddy).2.2.1 (by decide)⟩

/-- C5 counterexample: when the remote completion call raises, `complete`
does not yield the placeholder message; the error escapes `complete`
uncaught. -/
theorem complete_failure_no_placeholder_cex :
    complete envGenDown "mistral-large2" "x" = Except.error "remote failure"
    ∧ (complete envGenDown "mistral-large2" "x").isOk = false
    ∧ complete envGenDown "mistral-large2" "x" ≠
        Except.ok placeholderMsg := by
  refine ⟨rfl, rfl, ?_⟩
  intro h
  exact absurd h (by simp [complete, envGenDown])

/-- C5 (amended): when the remote completion call fails, `complete`
propagates the exception unchanged; no placeholder message is substituted
anywhere in this file. -/
theorem complete_failure_propagates (env : Env) (m p e : String)
    (h : env.generate m p = Except.error e) :
    complete env m p = Except.error e := by
  simp [complete, h]

/-- C5 witness for the amended claim. -/
theorem complete_failure_propagates_witness :
    complete envGenDown "llama3-8b" "hello" = Except.error "remote failure" :=
  complete_failure_propagates envGenDown "llama3-8b" "hello" "remote failure"
    rfl

theorem flatMap_expandDollar_id (l : List Char) (h : '$' ∉ l) :
    l.flatMap expandDollar = l := by
  induction l with
  | nil => rfl
  | cons c t ih =>
      rw [List.mem_cons, not_or] at h
      rw [List.flatMap_cons, expandDollar, if_neg (fun hc => h.1 hc.symm),
        ih h.2]
      rfl

/-- C6: on success the completion operation returns the remote output with
every occurrence of the dollar character expanded to backslash-dollar, and
nothing else is changed: an output without a dollar character is returned
verbatim. -/
theorem complete_escapes_dollars (env : Env) (m p out : String)
    (h : env.generate m p = Except.ok out) :
    complete env m p =
      Except.ok (String.mk (out.data.flatMap expandDollar))
    ∧ ('$' ∉ out.data → complete env m p = Except.ok out) := by
  constructor
  · simp [complete, h, escapeDollar]
  · intro hnd
    have hid : out.data.flatMap expandDollar = out.data :=
      flatMap_expandDollar_id out.data hnd
    simp [complete, h, escapeDollar, hid]

/-- C6 witness: a dollar sign is escaped and plain text is untouched. -/
theorem complete_escapes_dollars_witness :
    complete envDollar "mistral-large2" "p" =
      Except.ok (String.mk (("a$b" : String).data.flatMap expandDollar))
    ∧ complete envPlain "mistral-large2" "p" = Except.ok "ab" :=
  ⟨(complete_escapes_dollars envDollar "mistral-large2" "p" "a$b" rfl).1,
   (complete_escapes_dollars envPlain "mistral-large2" "p" "ab" rfl).2
     (by decide)⟩

theorem get_chat_history_append (n : Nat) (msgs : List Message)
    (m : Message) :
    get_chat_history n (msgs ++ [m]) = msgs.drop (msgs.length - n) := by
  unfold get_chat_history
  by_cases h : msgs.length = 0
  · have hm : msgs = [] := List.length_eq_zero.mp h
    subst hm
    simp
  · have h2 : ¬ ((msgs ++ [m]).length < 2) := by
      simp only [List.length_append, List.length_singleton]
      omega
    rw [if_neg h2]
    have hlen : (msgs ++ [m]).length = msgs.length + 1 := by simp
    rw [hlen]
    have h3 : msgs.length + 1 - 1 = msgs.length := rfl
    rw [h3, List.take_left]
    have h4 : msgs.length + 1 - n - 1 = msgs.length - n := by omega
    rw [h4]

theorem create_prompt_append_last (env : Env) (cfg : Config)
    (msgs : List Message) (m1 m2 : Message) (c : String) :
    create_prompt env cfg (msgs ++ [m1]) c =
      create_prompt env cfg (msgs ++ [m2]) c := by
  simp only [create_prompt, get_chat_history_append]

/-- C9: the message appended to the conversation log keeps the original
question text, while the whole pipeline (prompt assembly, retrieval,
generation, display) sees only the copy with every single quote removed:
two questions with the same quote-stripped form produce the same displayed
response and the same appended assistant message. -/
theorem main_quote_stripping_spec (env : Env) (cfg : Config)
    (msgs : List Message) (q : String) :
    (runTurn env cfg msgs q).1.take (msgs.length + 1) =
      msgs ++ [⟨Role.user, q⟩]
    ∧ (removeQuotes q).data = q.data.filter (fun c => c ≠ quoteChar)
    ∧ ∀ q2, removeQuotes q = removeQuotes q2 →
        (runTurn env cfg msgs q).2 = (runTurn env cfg msgs q2).2
        ∧ (runTurn env cfg msgs q).1.drop (msgs.length + 1) =
            (runTurn env cfg msgs q2).1.drop (msgs.length + 1) := by
  have hlen1 : ∀ r : String,
      msgs.length + 1 = (msgs ++ [(⟨Role.user, r⟩ : Message)]).length := by
    intro r; simp
  have hdrop : ∀ r : String,
      (msgs ++ [(⟨Role.user, r⟩ : Message)]).drop (msgs.length + 1) = [] := by
    intro r
    apply List.drop_eq_nil_of_le
    simp
  have hdrop2 : ∀ (r : String) (a : Message),
      ((msgs ++ [(⟨Role.user, r⟩ : Message)]) ++ [a]).drop
        (msgs.length + 1) = [a] := by
    intro r a
    rw [hlen1 r]
    exact List.drop_left _ _
  refine ⟨?_, rfl, ?_⟩
  · simp only [runTurn]
    rcases hcp : create_prompt env cfg (msgs ++ [⟨Role.user, q⟩])
        (removeQuotes q) with e | ⟨⟨pr, res⟩, evs⟩
    · simp only [hcp]
      rw [hlen1 q]
      exact List.take_length _
    · rcases hc : complete env cfg.model_name pr with e | g
      · simp only [hcp, hc]
        rw [hlen1 q]
        exact List.take_length _
      · simp only [hcp, hc]
        rw [hlen1 q]
        exact List.take_left _ _
  · intro q2 heq
    have hcp2 : create_prompt env cfg (msgs ++ [⟨Role.user, q⟩])
        (removeQuotes q) =
        create_prompt env cfg (msgs ++ [⟨Role.user, q2⟩]) (removeQuotes q2) := by
      rw [heq]
      exact create_prompt_append_last env cfg msgs _ _ (removeQuotes q2)
    simp only [runTurn, hcp2]
    rcases hcp : create_prompt env cfg (msgs ++ [⟨Role.user, q2⟩])
        (removeQuotes q2) with e | ⟨⟨pr, res⟩, evs⟩
    · simp only [hcp]
      exact ⟨trivial, by rw [hdrop q, hdrop q2]⟩
    · rcases hc : complete env cfg.model_name pr with e | g
      · simp only [hcp, hc]
        exact ⟨trivial, by rw [hdrop q, hdrop q2]⟩
      · simp only [hcp, hc]
        exact ⟨trivial, by rw [hdrop2 q _, hdrop2 q2 _]⟩

/-- C9 witness: a question with a quote and its quote-free twin. -/
theorem main_quote_stripping_spec_witness :
    (runTurn (envOf gen0 srch0) cfg0 [] ("don" ++ apo ++ "t")).2 =
      (runTurn (envOf gen0 srch0) cfg0 [] "dont").2
    ∧ (runTurn (envOf gen0 srch0) cfg0 []
        ("don" ++ apo ++ "t")).1.drop 1 =
      (runTurn (envOf gen0 srch0) cfg0 [] "dont").1.drop 1 :=
  (main_quote_stripping_spec (envOf gen0 srch0) cfg0 []
    ("don" ++ apo ++ "t")).2.2 "dont" (by decide)

/-- C2: for a message list with at most one message the chat-history window
is empty for every window size; otherwise it returns at most `n` messages,
always excluding the most recent message and preserving order (it is a
contiguous suffix of the list with its last element removed). -/
theorem get_chat_history_window_spec (n : Nat) (msgs : List Message) :
    (msgs.length ≤ 1 → get_chat_history n msgs = [])
    ∧ (get_chat_history n msgs).length ≤ n
    ∧ (get_chat_history n msgs) <:+ msgs.dropLast := by
  unfold get_chat_history
  by_cases h : msgs.length < 2
  · simp [h]
  · have h2 : 2 ≤ msgs.length := Nat.le_of_not_lt h
    simp only [if_neg h]
    refine ⟨fun hle => absurd hle (by omega), ?_, ?_⟩
    · have := List.length_drop (msgs.length - n - 1) (msgs.take (msgs.length - 1))
      rw [this, List.length_take]
      omega
    · rw [← List.dropLast_eq_take]
      exact List.drop_suffix _ _

/-- C2 witness: a concrete four-message list with window size 2. -/
theorem get_chat_history_window_spec_witness :
    (([⟨Role.user, "a"⟩, ⟨Role.assistant, "b"⟩, ⟨Role.user, "c"⟩,
       ⟨Role.assistant, "d"⟩] : List Message).length ≤ 1 →
      get_chat_history 2 [⟨Role.user, "a"⟩, ⟨Role.assistant, "b"⟩,
        ⟨Role.user, "c"⟩, ⟨Role.assistant, "d"⟩] = [])
    ∧ (get_chat_history 2 [⟨Role.user, "a"⟩, ⟨Role.assistant, "b"⟩,
        ⟨Role.user, "c"⟩, ⟨Role.assistant, "d"⟩]).length ≤ 2
    ∧ (get_chat_history 2 [⟨Role.user, "a"⟩, ⟨Role.assistant, "b"⟩,
        ⟨Role.user, "c"⟩, ⟨Role.assistant, "d"⟩]) <:+
        ([⟨Role.user, "a"⟩, ⟨Role.assistant, "b"⟩, ⟨Role.user, "c"⟩,
          ⟨Role.assistant, "d"⟩] : List Message).dropLast :=
  get_chat_history_window_spec 2 _

theorem decodeMessage_encode (m : Message) :
    decodeMessage (encodeMessage m) = some m := by
  cases m with
  | mk r c => cases r <;> rfl

theorem mapM_decode_encode (msgs : List Message) :
    (msgs.map encodeMessage).mapM decodeMessage = some msgs := by
  induction msgs with
  | nil => rfl
  | cons m t ih =>
      rw [List.map_cons, List.mapM_cons, decodeMessage_encode, ih]
      rfl

theorem decodePetInfo_encode (p : PetInfo) :
    decodePetInfo (encodePetInfo p) = some p := by
  rcases p with ⟨n, t, b, a, w, sn, mc⟩
  cases n <;> cases t <;> cases b <;> cases a <;> cases w <;> cases sn <;>
    cases mc <;> rfl

theorem digitChar_isDigit (k : Nat) (h : k < 10) :
    (Nat.digitChar k).isDigit = true := by
  interval_cases k <;> decide

theorem pad2_digits (n : Nat) (h : n < 100) :
    ∀ c ∈ (pad2 n).data, c.isDigit = true := by
  intro c hc
  have hd2 : (pad2 n).data =
      [Nat.digitChar (n / 10), Nat.digitChar (n % 10)] := rfl
  rw [hd2] at hc
  rcases List.mem_cons.mp hc with hc | hc
  · subst hc; exact digitChar_isDigit _ (by omega)
  · rcases List.mem_cons.mp hc with hc | hc
    · subst hc; exact digitChar_isDigit _ (Nat.mod_lt _ (by omega))
    · cases hc

theorem pad4_digits (n : Nat) (h : n < 10000) :
    ∀ c ∈ (pad4 n).data, c.isDigit = true := by
  intro c hc
  have hd4 : (pad4 n).data =
      [Nat.digitChar (n / 1000), Nat.digitChar (n / 100 % 10),
        Nat.digitChar (n / 10 % 10), Nat.digitChar (n % 10)] := rfl
  rw [hd4] at hc
  rcases List.mem_cons.mp hc with hc | hc
  · subst hc; exact digitChar_isDigit _ (by omega)
  · rcases List.mem_cons.mp hc with hc | hc
    · subst hc; exact digitChar_isDigit _ (Nat.mod_lt _ (by omega))
    · rcases List.mem_cons.mp hc with hc | hc
      · subst hc; exact digitChar_isDigit _ (Nat.mod_lt _ (by omega))
      · rcases List.mem_cons.mp hc with hc | hc
        · subst hc; exact digitChar_isDigit _ (Nat.mod_lt _ (by omega))
        · cases hc

/-- C7: the export document has exactly the five spec fields; parsing it
back reproduces the same pet profile and the same ordered message
sequence; and the download file name matches
`pet_health_chat_<YYYYMMDD_HHMMSS>.json`. -/
theorem export_roundtrip_spec (ts svc model : String) (p : PetInfo)
    (msgs : List Message) (d : DateTime6) (hd : ValidDate d) :
    keysOf (export_chat ts p svc model msgs) =
      ["timestamp", "pet_info", "search_service", "model", "messages"]
    ∧ decodeExport (export_chat ts p svc model msgs) = some (p, msgs)
    ∧ matchesExportFilenamePattern (export_filename d) := by
  obtain ⟨hy, hmo, hda, hh, hmi, hs⟩ := hd
  refine ⟨rfl, ?_, ?_⟩
  · have hred : decodeExport (export_chat ts p svc model msgs) =
        (match decodePetInfo (encodePetInfo p),
            (msgs.map encodeMessage).mapM decodeMessage with
          | some p2, some ms2 => some (p2, ms2)
          | _, _ => none) := rfl
    rw [hred, decodePetInfo_encode, mapM_decode_encode]
  · refine ⟨fmtYmd d, fmtHms d, rfl, ?_, ?_, ?_, ?_⟩
    · simp [fmtYmd, String.length_append, pad4, pad2, String.length]
    · simp [fmtHms, String.length_append, pad2, String.length]
    · intro c hc
      rw [fmtYmd, String.data_append, String.data_append] at hc
      rcases List.mem_append.mp hc with hc2 | hc2
      · rcases List.mem_append.mp hc2 with hc3 | hc3
        · exact pad4_digits d.year hy c hc3
        · exact pad2_digits d.month hmo c hc3
      · exact pad2_digits d.day hda c hc2
    · intro c hc
      rw [fmtHms, String.data_append, String.data_append] at hc
      rcases List.mem_append.mp hc with hc2 | hc2
      · rcases List.mem_append.mp hc2 with hc3 | hc3
        · exact pad2_digits d.hour hh c hc3
        · exact pad2_digits d.minute hmi c hc3
      · exact pad2_digits d.second hs c hc2

/-- C7 witness: a two-pair conversation with a populated profile and a
concrete timestamp. -/
theorem export_roundtrip_spec_witness :
    keysOf (export_chat "2026-10-12T12:00:00" petBuddy "svc"
        "mistral-large2" msgs0) =
      ["timestamp", "pet_info", "search_service", "model", "messages"]
    ∧ decodeExport (export_chat "2026-10-12T12:00:00" petBuddy "svc"
        "mistral-large2" msgs0) = some (petBuddy, msgs0)
    ∧ matchesExportFilenamePattern (export_filename
        ⟨2026, 10, 12, 12, 0, 0⟩) :=
  export_roundtrip_spec "2026-10-12T12:00:00" "svc" "mistral-large2"
    petBuddy msgs0 ⟨2026, 10, 12, 12, 0, 0⟩
    ⟨by decide, by decide, by decide, by decide, by decide, by decide⟩

theorem turnLog_get (pairs : List (String × String)) :
    ∀ i (h : i < (pairs.flatMap pairMsgs).length),
      ((pairs.flatMap pairMsgs).get ⟨i, h⟩).role =
        (if i % 2 = 0 then Role.user else Role.assistant) := by
  induction pairs with
  | nil =>
      intro i h
      simp [pairMsgs] at h
  | cons pr t ih =>
      intro i h
      simp only [List.flatMap_cons, pairMsgs, List.cons_append,
        List.nil_append] at h ⊢
      rcases i with _ | i
      · rfl
      · rcases i with _ | i
        · rfl
        · have h2 : i < (t.flatMap pairMsgs).length := by
            simp only [List.length_cons] at h
            omega
          have hmod : (i + 2) % 2 = i % 2 := Nat.add_mod_right i 2
          have ih2 := ih i h2
          rw [List.get_eq_getElem] at ih2 ⊢
          simp only [List.getElem_cons_succ]
          rw [hmod]
          exact ih2

theorem chunks_preceded (chunks : List (String × Option String)) :
    ∀ i, roleAt (chunks.flatMap chunkMsgs) i = some Role.assistant →
      1 ≤ i ∧ roleAt (chunks.flatMap chunkMsgs) (i - 1) = some Role.user := by
  have hstep : ∀ (m : Message) (l : List Message) (k : Nat),
      roleAt (m :: l) (k + 1) = roleAt l k := by
    intro m l k
    simp [roleAt]
  induction chunks with
  | nil =>
      intro i h
      simp [roleAt] at h
  | cons c rest ih =>
      rcases c with ⟨q, og⟩
      rcases og with _ | g
      · intro i h
        simp only [List.flatMap_cons, chunkMsgs, List.cons_append,
          List.nil_append] at h ⊢
        rcases i with _ | i
        · simp [roleAt] at h
        · rw [hstep] at h
          obtain ⟨h1, h2⟩ := ih i h
          refine ⟨by omega, ?_⟩
          obtain ⟨k, rfl⟩ : ∃ k, i = k + 1 := ⟨i - 1, by omega⟩
          have hk : k + 1 + 1 - 1 = k + 1 := rfl
          rw [hk, hstep]
          simpa using h2
      · intro i h
        simp only [List.flatMap_cons, chunkMsgs, List.cons_append,
          List.nil_append] at h ⊢
        rcases i with _ | i
        · simp [roleAt] at h
        · rcases i with _ | i
          · refine ⟨by omega, ?_⟩
            simp [roleAt]
          · rw [hstep, hstep] at h
            obtain ⟨h1, h2⟩ := ih i h
            refine ⟨by omega, ?_⟩
            obtain ⟨k, rfl⟩ : ∃ k, i = k + 1 := ⟨i - 1, by omega⟩
            have hk : k + 1 + 1 + 1 - 1 = k + 2 := rfl
            rw [hk, hstep, hstep]
            simpa using h2

theorem reachable_sessionLog (msgs : List Message) (h : Reachable msgs) :
    ∃ chunks : List (String × Option String),
      msgs = chunks.flatMap chunkMsgs := by
  induction h with
  | init => exact ⟨[], rfl⟩
  | clear msgs2 hr ih => exact ⟨[], rfl⟩
  | turn env cfg msgs2 q out r hr heq ih =>
      obtain ⟨chunks, hp⟩ := ih
      revert heq
      unfold runTurn
      rcases hcp : create_prompt env cfg (msgs2 ++ [⟨Role.user, q⟩])
          (removeQuotes q) with e | ⟨⟨pr, res⟩, evs⟩
      · simp only [hcp]
        intro heq
        injection heq with h1 h2
        refine ⟨chunks ++ [(q, none)], ?_⟩
        rw [← h1, hp, List.flatMap_append]
        simp [chunkMsgs]
      · rcases hc : complete env cfg.model_name pr with e | g
        · simp only [hcp, hc]
          intro heq
          injection heq with h1 h2
          refine ⟨chunks ++ [(q, none)], ?_⟩
          rw [← h1, hp, List.flatMap_append]
          simp [chunkMsgs]
        · simp only [hcp, hc]
          intro heq
          injection heq with h1 h2
          refine ⟨chunks ++ [(q, some g)], ?_⟩
          rw [← h1, hp, List.flatMap_append]
          simp [chunkMsgs, List.append_assoc]

/-- C8 counterexample: a turn whose completion call raises leaves its user
message in the session log with no assistant reply, so after a later
completed turn the reachable log user/user/assistant does not strictly
alternate (the message at index 1 is a user message at an odd index). -/
theorem conversation_alternation_cex :
    Reachable [⟨Role.user, "q1"⟩, ⟨Role.user, "q2"⟩,
      ⟨Role.assistant, "enhanced query"⟩]
    ∧ ¬ (roleAt [⟨Role.user, "q1"⟩, ⟨Role.user, "q2"⟩,
        ⟨Role.assistant, "enhanced query"⟩] 1 = some Role.assistant ↔
        1 % 2 = 1) := by
  constructor
  · exact Reachable.turn (envOf gen0 srch0) cfg0 [⟨Role.user, "q1"⟩] "q2"
      [⟨Role.user, "q1"⟩, ⟨Role.user, "q2"⟩,
        ⟨Role.assistant, "enhanced query"⟩]
      (Except.ok ("enhanced query" ++ buildReferences []))
      (Reachable.turn envGenDown cfg0 [] "q1" [⟨Role.user, "q1"⟩]
        (Except.error "remote failure") Reachable.init rfl)
      rfl
  · decide

/-- C8 (amended): in every session log reachable by turns and resets,
every assistant message is immediately preceded by the user message that
triggered it; strict user/assistant alternation (assistant exactly at odd
indices) holds for the logs built of completed turns only. -/
theorem conversation_log_shape_spec (msgs : List Message)
    (h : Reachable msgs) :
    (∀ i, roleAt msgs i = some Role.assistant →
      1 ≤ i ∧ roleAt msgs (i - 1) = some Role.user)
    ∧ (TurnLog msgs → ∀ i (hi : i < msgs.length),
        (((msgs.get ⟨i, hi⟩).role = Role.assistant) ↔ i % 2 = 1)) := by
  constructor
  · obtain ⟨chunks, hp⟩ := reachable_sessionLog msgs h
    subst hp
    exact chunks_preceded chunks
  · intro hT i hi
    obtain ⟨pairs, hp⟩ := hT
    subst hp
    rw [turnLog_get pairs i hi]
    rcases Nat.mod_two_eq_zero_or_one i with h2 | h2
    · simp [h2]
    · simp [h2]

/-- C8 witness: the log after one completed turn from the empty log. -/
theorem conversation_log_shape_spec_witness :
    (1 ≤ 1 ∧ roleAt [⟨Role.user, "hi"⟩,
        ⟨Role.assistant, "enhanced query"⟩] (1 - 1) = some Role.user)
    ∧ ((([⟨Role.user, "hi"⟩, ⟨Role.assistant, "enhanced query"⟩] :
        List Message).get ⟨1, by decide⟩).role = Role.assistant ↔
        1 % 2 = 1) := by
  have h := conversation_log_shape_spec
    [⟨Role.user, "hi"⟩, ⟨Role.assistant, "enhanced query"⟩]
    (Reachable.turn (envOf gen0 srch0) cfg0 [] "hi"
      [⟨Role.user, "hi"⟩, ⟨Role.assistant, "enhanced query"⟩]
      (Except.ok ("enhanced query" ++ buildReferences []))
      Reachable.init rfl)
  exact ⟨h.1 1 (by decide), h.2 ⟨[("hi", "enhanced query")], rfl⟩ 1
    (by decide)⟩

theorem create_prompt_envOf_isOk (f : String → String → String)
    (s : String → Nat → Except String (List SearchResult)) (cfg : Config)
    (msgs : List Message) (c : String) :
    ∃ pr res evs, create_prompt (envOf f s) cfg msgs c =
      Except.ok ((pr, res), evs) := by
  unfold create_prompt
  cases hu : cfg.use_chat_history
  · simp only [Bool.false_eq_true, if_false]
    exact ⟨_, _, _, rfl⟩
  · simp only [eq_self_iff_true, if_true]
    cases he : (get_chat_history cfg.num_chat_messages msgs).isEmpty
    · simp only [he, Bool.false_eq_true, if_false,
        make_chat_history_summary, complete_envOf]
      exact ⟨_, _, _, rfl⟩
    · simp only [he, eq_self_iff_true, if_true]
      exact ⟨_, _, _, rfl⟩

/-- C10: on a successful turn the displayed response is the generated text
followed by the references block built from the search results, while the
assistant message appended to the log holds only the generated text, and a
logged message serializes with exactly a role and a content field (no
sources, no references). -/
theorem turn_display_vs_log_spec (f : String → String → String)
    (s : String → Nat → Except String (List SearchResult)) (cfg : Config)
    (msgs : List Message) (q : String) :
    ∃ generated,
      complete (envOf f s) cfg.model_name
        (promptOf (create_prompt (envOf f s) cfg (msgs ++ [⟨Role.user, q⟩])
          (removeQuotes q))) = Except.ok generated
      ∧ runTurn (envOf f s) cfg msgs q =
          (msgs ++ [⟨Role.user, q⟩, ⟨Role.assistant, generated⟩],
            Except.ok (generated ++ buildReferences
              (resultsOf (create_prompt (envOf f s) cfg
                (msgs ++ [⟨Role.user, q⟩]) (removeQuotes q)))))
      ∧ keysOf (encodeMessage ⟨Role.assistant, generated⟩) =
          ["role", "content"] := by
  obtain ⟨pr, res, evs, hcp⟩ :=
    create_prompt_envOf_isOk f s cfg (msgs ++ [⟨Role.user, q⟩])
      (removeQuotes q)
  refine ⟨escapeDollar (f cfg.model_name pr), ?_, ?_, rfl⟩
  · rw [hcp]
    rfl
  · simp only [runTurn, hcp, complete_envOf, resultsOf]
    simp [List.append_assoc]
